import Mathlib

/-!
Verification of the browser-macro capture-and-replay engine.

This file shallowly embeds the core data model and operations of the
repository (step model, flow runner, step executor, locator synthesizer,
background message handlers, storage import/merge) as executable Lean
definitions, translated from the TypeScript sources, and proves or refutes
the frozen specification claims about them.

Modelling conventions:
- Chrome storage and the in-memory `Map`s are modelled as association lists
  threaded explicitly through the functions that mutate them.
- Asynchronous message sends to a tab are modelled by an executor oracle
  `Step → StepOutcome`, where `StepOutcome.chanErr` stands for the send
  itself failing (`chrome.runtime.lastError`, e.g. an unreachable tab).
- JavaScript string truthiness (`""` and `undefined`/`null` are falsy) is
  modelled explicitly by `strTruthy` / `jsOrS`.
- Timed waits are modelled by returning the list of requested sleep
  durations (in milliseconds) alongside the result.
-/

namespace BrowserMac

/-! ## Shared data model (src/shared/models.ts) -/

/-- `StepType` from models.ts: `"click" | "input" | "wait" | "submit" | "custom-js"`. -/
inductive StepType where
  | click
  | input
  | wait
  | submit
  | customJs
deriving DecidableEq

/-- `SelectorInfo` from models.ts. Optional string fields stay `Option String`;
`attributes` is the captured `data-*` record, modelled as an association list. -/
structure SelectorInfo where
  css : Option String := none
  xpath : Option String := none
  textSnapshot : Option String := none
  attributes : List (String × String) := []
deriving DecidableEq

/-- `Step` from models.ts. `meta` is a `Record<string, unknown>`; the code only
ever reads and writes string values (`script`, `tag`, `error`), so it is
modelled as a string association list. -/
structure Step where
  id : String
  name : Option String := none
  type : StepType
  selector : Option SelectorInfo := none
  value : Option String := none
  waitMs : Option Nat := none
  urlPattern : Option String := none
  meta : List (String × String) := []
deriving DecidableEq

/-- `Task` from models.ts. -/
structure Task where
  id : String
  name : String
  description : Option String := none
  steps : List Step
  createdAt : String
  updatedAt : String
  tags : Option (List String) := none
deriving DecidableEq

/-- `Flow` from models.ts. -/
structure Flow where
  id : String
  name : String
  description : Option String := none
  taskIds : List String
  autoRunUrlPatterns : Option (List String) := none
  enabled : Bool
  createdAt : String
  updatedAt : String
deriving DecidableEq

/-- `TriggerType` from models.ts. -/
inductive TriggerType where
  | manual
  | url
  | shortcut
deriving DecidableEq

/-- `Trigger` from models.ts. -/
structure Trigger where
  id : String
  type : TriggerType
  flowId : String
  urlPattern : Option String := none
  shortcutName : Option String := none
  enabled : Bool
deriving DecidableEq

/-- `RunStatus` from models.ts: the string union of success, failed and the
transient initial state (spelled partial in the source). -/
inductive RunStatus where
  | success
  | failed
  | partialRun
deriving DecidableEq

/-- `StepRunLog` from models.ts. -/
structure StepRunLog where
  stepId : String
  stepName : Option String := none
  status : RunStatus
  startedAt : String
  finishedAt : String
  errorMessage : Option String := none
deriving DecidableEq

/-- The cause recorded on a run log: `TriggerType | "direct"` in runner.ts. -/
inductive RunCause where
  | manual
  | url
  | shortcut
  | direct
deriving DecidableEq

/-- `FlowRunLog` from models.ts. -/
structure FlowRunLog where
  id : String
  flowId : String
  flowName : Option String := none
  triggeredBy : RunCause
  startedAt : String
  finishedAt : String
  status : RunStatus
  stepLogs : List StepRunLog
  urlAtStart : Option String := none
deriving DecidableEq

/-- `RecordingBuffer` from background/storage.ts. -/
structure RecordingBuffer where
  tabId : Nat
  sessionId : String
  steps : List Step
  startedAt : String
deriving DecidableEq

/-! ## JavaScript-semantics helpers -/

/-- Truthiness of an optional JS string: `undefined`/`null` and `""` are falsy. -/
def strTruthy : Option String → Bool
  | none => false
  | some s => s ≠ ""

/-- `a || b` for an optional JS string `a` and a string default `b`. -/
def jsOrS (a : Option String) (b : String) : String :=
  match a with
  | some s => if s = "" then b else s
  | none => b

/-- `a ?? b` (nullish coalescing) on options. -/
def jsNullish : Option α → Option α → Option α
  | some x, _ => some x
  | none, b => b

/-- Keyed in-place upsert, the common shape of every storage `save*`/`upsert*`
function (`findIndex` on the key; replace the first hit in place, else push)
and of `Map.set` on a map represented as an insertion-ordered list. -/
def upsertBy (g : α → κ) [DecidableEq κ] (b : α) : List α → List α
  | [] => [b]
  | x :: xs => if g x = g b then b :: xs else x :: upsertBy g b xs

theorem find?_upsertBy_self (g : α → κ) [DecidableEq κ] (b : α) (xs : List α) :
    (upsertBy g b xs).find? (fun x => g x = g b) = some b := by
  induction xs with
  | nil => simp [upsertBy, List.find?]
  | cons x xs ih =>
    by_cases h : g x = g b
    · simp [upsertBy, h, List.find?]
    · simp only [upsertBy, if_neg h, List.find?_cons]
      simp [h, ih]

theorem find?_upsertBy_other (g : α → κ) [DecidableEq κ] (b : α) (xs : List α)
    (k : κ) (hk : k ≠ g b) :
    (upsertBy g b xs).find? (fun x => g x = k) = xs.find? (fun x => g x = k) := by
  induction xs with
  | nil =>
    simp only [upsertBy, List.find?]
    rw [decide_eq_false (fun h : g b = k => hk (h.symm))]
  | cons x xs ih =>
    by_cases h : g x = g b
    · simp only [upsertBy, if_pos h]
      rw [List.find?_cons_of_neg _ (by simp [Ne.symm hk]),
        List.find?_cons_of_neg _ (by simp [h, Ne.symm hk])]
    · simp only [upsertBy, if_neg h, List.find?_cons]
      by_cases hx : g x = k <;> simp [hx, ih]

theorem mem_upsertBy_elim (g : α → κ) [DecidableEq κ] (b : α) (xs : List α)
    (a : α) (ha : a ∈ upsertBy g b xs) : a = b ∨ a ∈ xs := by
  induction xs with
  | nil => simpa [upsertBy] using ha
  | cons x xs ih =>
    by_cases h : g x = g b
    · simp only [upsertBy, if_pos h, List.mem_cons] at ha
      rcases ha with ha | ha
      · exact Or.inl ha
      · exact Or.inr (List.mem_cons_of_mem _ ha)
    · simp only [upsertBy, if_neg h, List.mem_cons] at ha
      rcases ha with ha | ha
      · exact Or.inr (ha ▸ List.mem_cons_self _ _)
      · rcases ih ha with h' | h'
        · exact Or.inl h'
        · exact Or.inr (List.mem_cons_of_mem _ h')

theorem mem_upsertBy (g : α → κ) [DecidableEq κ] (b : α) (xs : List α)
    (hnd : (xs.map g).Nodup) (a : α) :
    a ∈ upsertBy g b xs ↔ a = b ∨ (a ∈ xs ∧ g a ≠ g b) := by
  induction xs with
  | nil => simp [upsertBy]
  | cons x xs ih =>
    simp only [List.map_cons, List.nodup_cons] at hnd
    have htail : ∀ c ∈ xs, g c ≠ g x := fun c hc hcx =>
      hnd.1 (hcx ▸ List.mem_map_of_mem g hc)
    by_cases h : g x = g b
    · simp only [upsertBy, if_pos h, List.mem_cons]
      constructor
      · rintro (rfl | ha)
        · exact Or.inl rfl
        · exact Or.inr ⟨Or.inr ha, fun hab => htail a ha (hab.trans h.symm)⟩
      · rintro (rfl | ⟨(rfl | ha'), hne⟩)
        · exact Or.inl rfl
        · exact absurd h hne
        · exact Or.inr ha'
    · simp only [upsertBy, if_neg h, List.mem_cons, ih hnd.2]
      constructor
      · rintro (rfl | (rfl | ⟨ha, hne⟩))
        · exact Or.inr ⟨Or.inl rfl, fun hc => h hc⟩
        · exact Or.inl rfl
        · exact Or.inr ⟨Or.inr ha, hne⟩
      · rintro (rfl | ⟨(rfl | ha), hne⟩)
        · exact Or.inr (Or.inl rfl)
        · exact Or.inl rfl
        · exact Or.inr (Or.inr ⟨ha, hne⟩)

theorem keys_nodup_upsertBy (g : α → κ) [DecidableEq κ] (b : α) (xs : List α)
    (h : (xs.map g).Nodup) : ((upsertBy g b xs).map g).Nodup := by
  induction xs with
  | nil => simp [upsertBy]
  | cons x xs ih =>
    simp only [List.map_cons, List.nodup_cons] at h
    by_cases hx : g x = g b
    · simp only [upsertBy, if_pos hx, List.map_cons]
      rw [← hx]
      exact List.nodup_cons.mpr ⟨h.1, h.2⟩
    · simp only [upsertBy, if_neg hx, List.map_cons]
      refine List.nodup_cons.mpr ⟨?_, ih h.2⟩
      intro hmem
      rcases List.mem_map.mp hmem with ⟨y, hy, hgy⟩
      rcases mem_upsertBy_elim g b xs y hy with rfl | hyxs
      · exact hx hgy.symm
      · exact h.1 (hgy ▸ List.mem_map_of_mem g hyxs)

/-- Collapsing two successive upserts with the same key: only the second write
survives. This is what makes the runner's repeated `upsertLog` of the same
evolving log equal to one final upsert. -/
theorem upsertBy_upsertBy_same (g : α → κ) [DecidableEq κ] (b c : α)
    (hbc : g b = g c) (xs : List α) :
    upsertBy g c (upsertBy g b xs) = upsertBy g c xs := by
  induction xs with
  | nil => simp [upsertBy, hbc]
  | cons x xs ih =>
    by_cases h : g x = g b
    · simp [upsertBy, h, hbc, h.trans hbc]
    · have h' : ¬ g x = g c := fun hc => h (hc.trans hbc.symm)
      simp [upsertBy, h, h', ih]

/-! ## Flow Runner (src/background/runner.ts, src/background/logger.ts)

The asynchronous pieces are made explicit: `nowV` stands for the value of
`nowIso()` (constant within one run in the model), `logIdV` for the
`randomId("log")` drawn by `createFlowLog`, and the executor oracle
`exec : Step → StepOutcome` stands for `sendStepToTab`. -/

/-- Outcome of `sendStepToTab` for one step: the content script's structured
result (`success: true`, or `success: false` with an optional `errorMessage`),
or a rejection of the send itself (`chrome.runtime.lastError` carrying a
message), which the runner sees as a thrown error. -/
inductive StepOutcome where
  | ok
  | fail (errorMessage : Option String)
  | chanErr (message : String)
deriving DecidableEq

/-- `new Map(tasks.map((t) => [t.id, t.steps]))` followed by `.get(taskId)`:
later entries overwrite earlier ones, so lookup returns the last matching
task's steps. -/
def tasksMapGet (tasks : List Task) (taskId : String) : Option (List Step) :=
  ((tasks.map (fun t => (t.id, t.steps))).reverse.find? (fun p => p.1 = taskId)).map
    (fun p => p.2)

/-- `flattenSteps` from runner.ts: concatenate the steps of each referenced
task in order; a missing task reference contributes `[]` (`?? []`). -/
def flattenSteps (flow : Flow) (tasks : List Task) : List Step :=
  (flow.taskIds.map (fun tid => (tasksMapGet tasks tid).getD [])).flatten

/-- `createFlowLog` from logger.ts. -/
def createFlowLog (logIdV nowV : String) (flow : Flow) (triggeredBy : RunCause)
    (urlAtStart : Option String) : FlowRunLog :=
  { id := logIdV
    flowId := flow.id
    flowName := some flow.name
    triggeredBy := triggeredBy
    startedAt := nowV
    finishedAt := nowV
    status := RunStatus.partialRun
    stepLogs := []
    urlAtStart := urlAtStart }

/-- The `StepRunLog` built by `addStepLog` in logger.ts. -/
def mkStepLog (nowV : String) (s : Step) (status : RunStatus)
    (errorMessage : Option String) : StepRunLog :=
  { stepId := s.id
    stepName := s.name
    status := status
    startedAt := nowV
    finishedAt := nowV
    errorMessage := errorMessage }

/-- `upsertLog` from storage.ts: keyed in-place upsert on the log id. -/
def upsertLog (logs : List FlowRunLog) (log : FlowRunLog) : List FlowRunLog :=
  upsertBy FlowRunLog.id log logs

/-- `addStepLog` from logger.ts: push a step log onto the flow log and persist
the updated flow log. Returns the updated store and flow log. -/
def addStepLog (store : List FlowRunLog) (flowLog : FlowRunLog) (nowV : String)
    (s : Step) (status : RunStatus) (errorMessage : Option String) :
    List FlowRunLog × FlowRunLog :=
  let flowLog' := { flowLog with stepLogs := flowLog.stepLogs ++ [mkStepLog nowV s status errorMessage] }
  (upsertLog store flowLog', flowLog')

/-- `finalizeFlowLog` from logger.ts: set the final status and finish time and
persist. -/
def finalizeFlowLog (store : List FlowRunLog) (flowLog : FlowRunLog)
    (nowV : String) (status : RunStatus) : List FlowRunLog × FlowRunLog :=
  let flowLog' := { flowLog with status := status, finishedAt := nowV }
  (upsertLog store flowLog', flowLog')

/-- The `for (const step of steps)` loop of `runFlow`: on a success result
append a success step log and continue; on a failure result append a failed
step log with the result's `errorMessage`, finalize as failed and return; on a
send error (the `catch`) append a failed step log with the error's message,
finalize as failed and return; when the list is exhausted finalize as
success. -/
def runFlowLoop (exec : Step → StepOutcome) (nowV : String)
    (store : List FlowRunLog) (flowLog : FlowRunLog) :
    List Step → List FlowRunLog × FlowRunLog
  | [] => finalizeFlowLog store flowLog nowV RunStatus.success
  | s :: rest =>
    match exec s with
    | StepOutcome.ok =>
      let (store', flowLog') := addStepLog store flowLog nowV s RunStatus.success none
      runFlowLoop exec nowV store' flowLog' rest
    | StepOutcome.fail em =>
      let (store', flowLog') := addStepLog store flowLog nowV s RunStatus.failed em
      finalizeFlowLog store' flowLog' nowV RunStatus.failed
    | StepOutcome.chanErr m =>
      let (store', flowLog') := addStepLog store flowLog nowV s RunStatus.failed (some m)
      finalizeFlowLog store' flowLog' nowV RunStatus.failed

/-- `runFlow` from runner.ts. `store` is the persisted `logs` collection;
`explicitTabId` is the optional argument and `activeTabId` the result of the
active-tab query (`none` when no active tab exists). Errors thrown before any
log is created are returned as `Except.error` with the store untouched. -/
def runFlow (flows : List Flow) (tasks : List Task) (exec : Step → StepOutcome)
    (logIdV nowV : String) (explicitTabId activeTabId : Option Nat)
    (store : List FlowRunLog) (flowId : String) (triggeredBy : RunCause) :
    List FlowRunLog × Except String FlowRunLog :=
  match flows.find? (fun f => f.id = flowId) with
  | none => (store, Except.error "Flow not found")
  | some flow =>
    let steps := flattenSteps flow tasks
    match jsNullish explicitTabId activeTabId with
    | none => (store, Except.error "No active tab found")
    | some _ =>
      let flowLog := createFlowLog logIdV nowV flow triggeredBy none
      let (store', finalLog) := runFlowLoop exec nowV store flowLog steps
      (store', Except.ok finalLog)

/-- The success step log the runner records for step `s`. -/
def successStepLog (nowV : String) (s : Step) : StepRunLog :=
  mkStepLog nowV s RunStatus.success none

/-- The error message the runner attaches for a failing outcome (`none` for a
success outcome). For an executor failure this is the result's optional
`errorMessage`; for a send error it is the error's message. -/
def failureMessage : StepOutcome → Option (Option String)
  | StepOutcome.ok => none
  | StepOutcome.fail em => some em
  | StepOutcome.chanErr m => some (some m)

/-- Two successive persists of the same evolving log collapse to the final
persist. -/
theorem upsertLog_collapse (store : List FlowRunLog) (a b : FlowRunLog)
    (h : FlowRunLog.id a = FlowRunLog.id b) :
    upsertLog (upsertLog store a) b = upsertLog store b :=
  upsertBy_upsertBy_same FlowRunLog.id a b h store

/-- Helper: the loop, run on steps that all succeed, finalizes as success with
one success step log per step appended, and the store receives exactly one
upsert of the final log. -/
theorem runFlowLoop_all_ok (exec : Step → StepOutcome) (nowV : String)
    (steps : List Step) (store : List FlowRunLog) (flowLog : FlowRunLog)
    (h : ∀ s ∈ steps, exec s = StepOutcome.ok) :
    runFlowLoop exec nowV store flowLog steps =
      (upsertLog store
        { flowLog with
          status := RunStatus.success
          finishedAt := nowV
          stepLogs := flowLog.stepLogs ++ steps.map (successStepLog nowV) },
       { flowLog with
          status := RunStatus.success
          finishedAt := nowV
          stepLogs := flowLog.stepLogs ++ steps.map (successStepLog nowV) }) := by
  induction steps generalizing store flowLog with
  | nil => simp [runFlowLoop, finalizeFlowLog]
  | cons s rest ih =>
    have hs : exec s = StepOutcome.ok := h s (List.mem_cons_self _ _)
    have hrest : ∀ x ∈ rest, exec x = StepOutcome.ok := fun x hx =>
      h x (List.mem_cons_of_mem _ hx)
    simp only [runFlowLoop, hs, addStepLog]
    rw [ih _ _ hrest]
    simp only [upsertLog_collapse]
    simp [successStepLog, List.append_assoc]

/-- Helper: the loop, run on a list whose prefix succeeds and whose next step
fails (executor failure or send error), records the successful prefix, appends
exactly one failed step log carrying the failure's message, finalizes as
failed, and never looks at the remaining steps. -/
theorem runFlowLoop_first_failure (exec : Step → StepOutcome) (nowV : String)
    (pre : List Step) (s : Step) (post : List Step) (em : Option String)
    (store : List FlowRunLog) (flowLog : FlowRunLog)
    (hpre : ∀ x ∈ pre, exec x = StepOutcome.ok)
    (hfail : failureMessage (exec s) = some em) :
    runFlowLoop exec nowV store flowLog (pre ++ s :: post) =
      (upsertLog store
        { flowLog with
          status := RunStatus.failed
          finishedAt := nowV
          stepLogs := flowLog.stepLogs ++ pre.map (successStepLog nowV) ++
            [mkStepLog nowV s RunStatus.failed em] },
       { flowLog with
          status := RunStatus.failed
          finishedAt := nowV
          stepLogs := flowLog.stepLogs ++ pre.map (successStepLog nowV) ++
            [mkStepLog nowV s RunStatus.failed em] }) := by
  induction pre generalizing store flowLog with
  | nil =>
    simp only [List.nil_append, List.map_nil, List.append_nil]
    match hx : exec s with
    | StepOutcome.ok => rw [hx] at hfail; exact absurd hfail (by simp [failureMessage])
    | StepOutcome.fail m =>
      rw [hx] at hfail
      simp only [failureMessage, Option.some.injEq] at hfail
      subst hfail
      simp only [runFlowLoop, hx, addStepLog, finalizeFlowLog]
      simp only [upsertLog_collapse]
    | StepOutcome.chanErr m =>
      rw [hx] at hfail
      simp only [failureMessage, Option.some.injEq] at hfail
      subst hfail
      simp only [runFlowLoop, hx, addStepLog, finalizeFlowLog]
      simp only [upsertLog_collapse]
  | cons x pre ih =>
    have hx : exec x = StepOutcome.ok := hpre x (List.mem_cons_self _ _)
    have hrest : ∀ y ∈ pre, exec y = StepOutcome.ok := fun y hy =>
      hpre y (List.mem_cons_of_mem _ hy)
    simp only [List.cons_append, runFlowLoop, hx, addStepLog, List.append_eq]
    rw [ih _ _ hrest]
    simp only [upsertLog_collapse]
    simp [successStepLog, List.append_assoc]

/-- Claim C1: for every flow run, the Flow Runner executes the flattened step
sequence strictly in order; if every step's executor result is a success it
finalizes the run log with status success and one success StepRunLog per step,
and on the first step whose executor result is a failure (or whose send to the
tab raises an error) it appends exactly one failed StepRunLog carrying the
error message, finalizes the log as failed, and attempts none of the remaining
steps, so the log contains exactly the steps up to and including the
failure. -/
theorem runFlow_first_failure_semantics
    (flows : List Flow) (tasks : List Task) (exec : Step → StepOutcome)
    (logIdV nowV : String) (explicitTabId activeTabId : Option Nat)
    (store : List FlowRunLog) (flowId : String) (cause : RunCause) (flow : Flow)
    (hfind : flows.find? (fun f => f.id = flowId) = some flow)
    (htab : (jsNullish explicitTabId activeTabId).isSome = true) :
    ((∀ s ∈ flattenSteps flow tasks, exec s = StepOutcome.ok) →
      runFlow flows tasks exec logIdV nowV explicitTabId activeTabId store flowId cause =
        (upsertLog store
          { id := logIdV, flowId := flow.id, flowName := some flow.name,
            triggeredBy := cause, startedAt := nowV, finishedAt := nowV,
            status := RunStatus.success,
            stepLogs := (flattenSteps flow tasks).map (successStepLog nowV),
            urlAtStart := none },
         Except.ok
          { id := logIdV, flowId := flow.id, flowName := some flow.name,
            triggeredBy := cause, startedAt := nowV, finishedAt := nowV,
            status := RunStatus.success,
            stepLogs := (flattenSteps flow tasks).map (successStepLog nowV),
            urlAtStart := none })) ∧
    (∀ pre s post em, flattenSteps flow tasks = pre ++ s :: post →
      (∀ x ∈ pre, exec x = StepOutcome.ok) →
      failureMessage (exec s) = some em →
      runFlow flows tasks exec logIdV nowV explicitTabId activeTabId store flowId cause =
        (upsertLog store
          { id := logIdV, flowId := flow.id, flowName := some flow.name,
            triggeredBy := cause, startedAt := nowV, finishedAt := nowV,
            status := RunStatus.failed,
            stepLogs := pre.map (successStepLog nowV) ++
              [mkStepLog nowV s RunStatus.failed em],
            urlAtStart := none },
         Except.ok
          { id := logIdV, flowId := flow.id, flowName := some flow.name,
            triggeredBy := cause, startedAt := nowV, finishedAt := nowV,
            status := RunStatus.failed,
            stepLogs := pre.map (successStepLog nowV) ++
              [mkStepLog nowV s RunStatus.failed em],
            urlAtStart := none })) := by
  obtain ⟨t, ht⟩ := Option.isSome_iff_exists.mp htab
  constructor
  · intro hok
    simp only [runFlow, hfind, ht]
    rw [runFlowLoop_all_ok exec nowV _ store _ hok]
    simp [createFlowLog]
  · intro pre s post em hsteps hpre hfail
    simp only [runFlow, hfind, ht]
    rw [hsteps, runFlowLoop_first_failure exec nowV pre s post em store _ hpre hfail]
    simp [createFlowLog, List.append_assoc]

/-- Concrete witness data: two click steps, one task, one flow. -/
def wStep1 : Step := { id := "s1", type := StepType.click }

def wStep2 : Step := { id := "s2", type := StepType.click }

def wTask : Task :=
  { id := "t1", name := "task1", steps := [wStep1, wStep2],
    createdAt := "T0", updatedAt := "T0" }

def wFlow : Flow :=
  { id := "f1", name := "flow1", taskIds := ["t1"], enabled := true,
    createdAt := "T0", updatedAt := "T0" }

/-- Executor oracle where every step succeeds. -/
def execAllOk : Step → StepOutcome := fun _ => StepOutcome.ok

/-- Executor oracle failing on step s2 with errorMessage ng. -/
def execFailS2 : Step → StepOutcome := fun s =>
  if s.id = "s2" then StepOutcome.fail (some "ng") else StepOutcome.ok

/-- Witness for C1 at concrete inputs: a two-step flow where all steps
succeed, and the same flow where the second step fails with message ng. -/
theorem runFlow_first_failure_semantics_witness :
    List.find? (fun f => f.id = "f1") [wFlow] = some wFlow ∧
    flattenSteps wFlow [wTask] = [wStep1, wStep2] ∧
    runFlow [wFlow] [wTask] execAllOk "log1" "T1" (some 1) none [] "f1" RunCause.direct =
      (upsertLog []
        { id := "log1", flowId := wFlow.id, flowName := some wFlow.name,
          triggeredBy := RunCause.direct, startedAt := "T1", finishedAt := "T1",
          status := RunStatus.success,
          stepLogs := (flattenSteps wFlow [wTask]).map (successStepLog "T1"),
          urlAtStart := none },
       Except.ok
        { id := "log1", flowId := wFlow.id, flowName := some wFlow.name,
          triggeredBy := RunCause.direct, startedAt := "T1", finishedAt := "T1",
          status := RunStatus.success,
          stepLogs := (flattenSteps wFlow [wTask]).map (successStepLog "T1"),
          urlAtStart := none }) ∧
    runFlow [wFlow] [wTask] execFailS2 "log1" "T1" (some 1) none [] "f1" RunCause.direct =
      (upsertLog []
        { id := "log1", flowId := wFlow.id, flowName := some wFlow.name,
          triggeredBy := RunCause.direct, startedAt := "T1", finishedAt := "T1",
          status := RunStatus.failed,
          stepLogs := [wStep1].map (successStepLog "T1") ++
            [mkStepLog "T1" wStep2 RunStatus.failed (some "ng")],
          urlAtStart := none },
       Except.ok
        { id := "log1", flowId := wFlow.id, flowName := some wFlow.name,
          triggeredBy := RunCause.direct, startedAt := "T1", finishedAt := "T1",
          status := RunStatus.failed,
          stepLogs := [wStep1].map (successStepLog "T1") ++
            [mkStepLog "T1" wStep2 RunStatus.failed (some "ng")],
          urlAtStart := none }) := by
  refine ⟨by decide, by decide, ?_, ?_⟩
  · exact (runFlow_first_failure_semantics [wFlow] [wTask] execAllOk "log1" "T1"
      (some 1) none [] "f1" RunCause.direct wFlow (by decide) (by decide)).1
      (fun s _ => rfl)
  · exact (runFlow_first_failure_semantics [wFlow] [wTask] execFailS2 "log1" "T1"
      (some 1) none [] "f1" RunCause.direct wFlow (by decide) (by decide)).2
      [wStep1] wStep2 [] (some "ng") (by decide) (by decide) (by decide)

/-- Claim C10: for every flowId that matches no stored Flow, runFlow raises
the error Flow not found before creating any run log, leaving the persisted
logs collection unchanged. -/
theorem runFlow_missing_flow_leaves_logs_untouched
    (flows : List Flow) (tasks : List Task) (exec : Step → StepOutcome)
    (logIdV nowV : String) (explicitTabId activeTabId : Option Nat)
    (store : List FlowRunLog) (flowId : String) (cause : RunCause)
    (hfind : flows.find? (fun f => f.id = flowId) = none) :
    runFlow flows tasks exec logIdV nowV explicitTabId activeTabId store flowId cause =
      (store, Except.error "Flow not found") := by
  simp [runFlow, hfind]

/-- A pre-existing persisted run log used to observe that the logs collection
is untouched. -/
def wOldLog : FlowRunLog :=
  { id := "log0", flowId := "f0", flowName := some "flow0",
    triggeredBy := RunCause.direct, startedAt := "T0", finishedAt := "T0",
    status := RunStatus.success, stepLogs := [], urlAtStart := none }

/-- Witness for C10: running a nonexistent flow id over a nonempty logs
collection returns the error and the identical collection. -/
theorem runFlow_missing_flow_witness :
    List.find? (fun f => f.id = "f9") [wFlow] = none ∧
    runFlow [wFlow] [wTask] execAllOk "log1" "T1" (some 1) none [wOldLog] "f9"
        RunCause.direct = ([wOldLog], Except.error "Flow not found") :=
  ⟨by decide,
   runFlow_missing_flow_leaves_logs_untouched [wFlow] [wTask] execAllOk "log1" "T1"
     (some 1) none [wOldLog] "f9" RunCause.direct (by decide)⟩

/-! ## Step Executor (src/content/executor.ts)

The DOM is externally owned and time-varying; following the spec's modelling
note, locator resolution is a pure query against a page snapshot. A `Page`
gives the result of `document.querySelector` and `document.evaluate` for each
selector string (`none` both for no match and for an invalid selector, which
the code converts to `null` in its catch). `pages i` is the snapshot seen by
resolution attempt `i`. Elements are abstract handles (`Nat`). Sleeps are
accumulated in order as their requested durations. -/

/-- A page snapshot: CSS query and XPath query results. -/
structure Page where
  cssQ : String → Option Nat
  xpathQ : String → Option Nat

/-- The executor's environment: the page snapshot at each resolution attempt,
and the outcome of running a custom script (`new Function(script)()`), which
is external code that may throw. -/
structure ExecEnv where
  pages : Nat → Page
  customJs : String → Except String Unit

/-- `findByCss` from executor.ts (invalid selectors already folded into the
page oracle as `none`). -/
def findByCss (page : Page) (selector : String) : Option Nat :=
  page.cssQ selector

/-- `findByXPath` from executor.ts: `if (!xpath) return null`, else evaluate. -/
def findByXPath (page : Page) (xpath : Option String) : Option Nat :=
  match xpath with
  | none => none
  | some x => if x = "" then none else page.xpathQ x

/-- `resolveElement` from executor.ts:
`selector.css ? findByCss(selector.css) : findByXPath(selector.xpath)`. -/
def resolveElement (page : Page) (selector : Option SelectorInfo) : Option Nat :=
  match selector with
  | none => none
  | some sel =>
    if strTruthy sel.css then findByCss page (jsOrS sel.css "")
    else findByXPath page sel.xpath

/-- The `for` loop of `waitForElement`: `remaining` attempts are left and `i`
is the current attempt index; a 500ms (`intervalMs`) sleep separates attempts
but does not follow the last one. Returns the sleeps and the element found. -/
def waitLoop (resolveAt : Nat → Option Nat) (intervalMs : Nat) (i : Nat) :
    Nat → List Nat × Option Nat
  | 0 => ([], none)
  | remaining + 1 =>
    match resolveAt i with
    | some el => ([], some el)
    | none =>
      if remaining = 0 then ([], none)
      else
        let (sleeps, res) := waitLoop resolveAt intervalMs (i + 1) remaining
        (intervalMs :: sleeps, res)

/-- `waitForElement` from executor.ts with the default budget: 5 attempts at
500ms spacing. -/
def waitForElement (pages : Nat → Page) (selector : Option SelectorInfo) :
    List Nat × Option Nat :=
  match selector with
  | none => ([], none)
  | some sel => waitLoop (fun i => resolveElement (pages i) (some sel)) 500 0 5

/-- The selector string reported in the executor's element-not-found errors:
`step.selector?.css || step.selector?.xpath || "unknown"`. -/
def selectorStr (selector : Option SelectorInfo) : String :=
  match selector with
  | none => "unknown"
  | some sel => jsOrS sel.css (jsOrS sel.xpath "unknown")

/-- The pre-delay of `runStep`: `if (step.waitMs && step.waitMs > 0) await
waitMs(step.waitMs)`. -/
def preDelaySleeps (step : Step) : List Nat :=
  match step.waitMs with
  | some w => if 0 < w then [w] else []
  | none => []

/-- `runStep` from executor.ts, returning the requested sleeps in order and
the result (`Except.error` is a thrown error, which the message listener turns
into a `success: false` response). -/
def runStep (env : ExecEnv) (step : Step) : List Nat × Except String Unit :=
  let pre :=
    match step.waitMs with
    | some w => if 0 < w then [w] else []
    | none => []
  match step.type with
  | StepType.wait => (pre ++ [step.waitMs.getD 500], Except.ok ())
  | StepType.click =>
    let (sleeps, el) := waitForElement env.pages step.selector
    match el with
    | none =>
      (pre ++ sleeps,
       Except.error ("Element not found for click. Selector: " ++ selectorStr step.selector))
    | some _ => (pre ++ sleeps, Except.ok ())
  | StepType.input =>
    let (sleeps, el) := waitForElement env.pages step.selector
    match el with
    | none =>
      (pre ++ sleeps,
       Except.error ("Element not found for input. Selector: " ++ selectorStr step.selector))
    | some _ => (pre ++ sleeps, Except.ok ())
  | StepType.submit =>
    let (sleeps, el) := waitForElement env.pages step.selector
    match el with
    | none => (pre ++ sleeps, Except.error "Element not found for submit")
    | some _ => (pre ++ sleeps, Except.ok ())
  | StepType.customJs =>
    match step.meta.find? (fun p => p.1 = "script") with
    | none => (pre, Except.error "No custom script provided")
    | some p =>
      if p.2 = "" then (pre, Except.error "No custom script provided")
      else (pre, env.customJs p.2)

/-- Claim C5: for every step, execution honors the step's pre-delay (waitMs)
before acting regardless of step type, and a step of type wait then sleeps for
its waitMs, or the default 500ms when waitMs is absent, and succeeds
unconditionally. -/
theorem runStep_pre_delay_and_wait (env : ExecEnv) (step : Step) :
    (∃ rest, (runStep env step).1 = preDelaySleeps step ++ rest) ∧
    (step.type = StepType.wait →
      runStep env step = (preDelaySleeps step ++ [step.waitMs.getD 500], Except.ok ())) := by
  constructor
  · rcases hw : waitForElement env.pages step.selector with ⟨sleeps, el⟩
    cases htype : step.type
    · exact ⟨sleeps, by cases el <;> simp [runStep, htype, hw, preDelaySleeps]⟩
    · exact ⟨sleeps, by cases el <;> simp [runStep, htype, hw, preDelaySleeps]⟩
    · exact ⟨[step.waitMs.getD 500], by simp [runStep, htype, preDelaySleeps]⟩
    · exact ⟨sleeps, by cases el <;> simp [runStep, htype, hw, preDelaySleeps]⟩
    · refine ⟨[], ?_⟩
      rcases hf : step.meta.find? (fun p => p.1 = "script") with _ | p
      · simp [runStep, htype, hf, preDelaySleeps]
      · by_cases hp : p.2 = "" <;> simp [runStep, htype, hf, hp, preDelaySleeps]
  · intro htype
    simp [runStep, htype, preDelaySleeps]

/-- An environment whose pages never resolve anything. -/
def envNoElems : ExecEnv :=
  { pages := fun _ => { cssQ := fun _ => none, xpathQ := fun _ => none }
    customJs := fun _ => Except.ok () }

/-- A wait step with a 250ms pre-delay. -/
def wWaitStep : Step := { id := "w1", type := StepType.wait, waitMs := some 250 }

/-- Witness for C5: a wait step with waitMs 250 sleeps 250ms as pre-delay and
then 250ms as the wait action, succeeding. -/
theorem runStep_pre_delay_and_wait_witness :
    wWaitStep.type = StepType.wait ∧
    runStep envNoElems wWaitStep = ([250, 250], Except.ok ()) := by
  refine ⟨rfl, ?_⟩
  have h := (runStep_pre_delay_and_wait envNoElems wWaitStep).2 rfl
  simpa [preDelaySleeps, wWaitStep] using h

/-- A page where no CSS selector resolves but the positional XPath of the
counterexample step does resolve (to element 7). -/
def pageCssDead : Page :=
  { cssQ := fun _ => none
    xpathQ := fun x => if x = "/html/body/div[1]" then some 7 else none }

/-- An environment showing `pageCssDead` on every resolution attempt. -/
def envCssDead : ExecEnv :=
  { pages := fun _ => pageCssDead, customJs := fun _ => Except.ok () }

/-- A locator carrying both a primary CSS selector and a secondary XPath. -/
def selBoth : SelectorInfo :=
  { css := some "#login", xpath := some "/html/body/div[1]" }

/-- A click step with both locator components. -/
def clickBoth : Step := { id := "c1", type := StepType.click, selector := some selBoth }

/-- Counterexample to claim C2: on a page where the primary CSS selector
resolves nothing but the secondary XPath resolves element 7, resolution
returns nothing on every attempt and the click step fails with
ElementNotFound — the XPath is never consulted, so it is not a fallback for a
failing primary selector. -/
theorem resolveElement_no_xpath_fallback_counterexample :
    findByXPath pageCssDead selBoth.xpath = some 7 ∧
    resolveElement pageCssDead (some selBoth) = none ∧
    runStep envCssDead clickBoth =
      ([500, 500, 500, 500],
       Except.error "Element not found for click. Selector: #login") := by
  refine ⟨by decide, by decide, by rfl⟩

/-- Claim C2 (amended): element resolution uses the XPath only when the
primary CSS selector is absent or empty. Whenever the CSS selector is a
nonempty string, the step's outcome (sleeps, result, and error message) is
entirely independent of the XPath; when the CSS selector is absent or empty,
resolution is exactly the XPath query. -/
theorem resolveElement_css_exclusive (env : ExecEnv) (step : Step)
    (sel : SelectorInfo) (xp' : Option String) (page : Page) :
    (strTruthy sel.css = true →
      runStep env { step with selector := some { sel with xpath := xp' } } =
        runStep env { step with selector := some sel }) ∧
    (strTruthy sel.css = false →
      resolveElement page (some sel) = findByXPath page sel.xpath) := by
  constructor
  · intro htruthy
    have hres : ∀ p : Page,
        resolveElement p (some { sel with xpath := xp' }) = resolveElement p (some sel) := by
      intro p
      simp [resolveElement, htruthy]
    have hwait : waitForElement env.pages (some { sel with xpath := xp' }) =
        waitForElement env.pages (some sel) := by
      simp only [waitForElement]
      congr 1
      funext i
      exact hres (env.pages i)
    have hselstr : selectorStr (some { sel with xpath := xp' }) = selectorStr (some sel) := by
      rcases sel with ⟨css, xpath, t, a⟩
      cases css with
      | none => simp [strTruthy] at htruthy
      | some c =>
        have hc : ¬ c = "" := by simpa [strTruthy] using htruthy
        simp [selectorStr, jsOrS, hc]
    cases htype : step.type <;>
      simp [runStep, htype, hwait, hselstr]
  · intro hfalsy
    simp [resolveElement, hfalsy]

/-- A locator with no CSS selector at all. -/
def selXPathOnly : SelectorInfo := { css := none, xpath := some "/html/body/div[1]" }

/-- Witness for the amended C2: with the counterexample's nonempty CSS
selector, replacing the XPath does not change the step's outcome; with no CSS
selector, resolution is the XPath query. -/
theorem resolveElement_css_exclusive_witness :
    (strTruthy selBoth.css = true ∧
      runStep envCssDead { clickBoth with selector := some { selBoth with xpath := some "/html/body/div[9]" } } =
        runStep envCssDead { clickBoth with selector := some selBoth }) ∧
    (strTruthy selXPathOnly.css = false ∧
      resolveElement pageCssDead (some selXPathOnly) =
        findByXPath pageCssDead selXPathOnly.xpath) :=
  ⟨⟨by decide,
    (resolveElement_css_exclusive envCssDead clickBoth selBoth
      (some "/html/body/div[9]") pageCssDead).1 (by decide)⟩,
   ⟨by decide,
    (resolveElement_css_exclusive envCssDead clickBoth selXPathOnly
      (some "/html/body/div[9]") pageCssDead).2 (by decide)⟩⟩

/-! ## Locator Synthesizer (src/content/selectors.ts)

`fallbackCss` and `buildXPath` walk the DOM upward through `parentElement`.
An element is modelled by its attribute list and its ancestor chain: one
`Level` per element from the target element upward, each carrying what the
walk reads at that element. `CSS.escape` is the browser's identifier-escaping
builtin, modelled as the identity it is on the identifier-safe class and id
names used throughout this development. -/

/-- One element on the ancestor chain, as read by the walk: its lowercased
tag name, its raw class attribute (`getAttribute("class") || ""`), the tag
names of its parent's children in order (`[]` when it has no parent), its
index among those children, and whether it is `document.body`. -/
structure Level where
  tag : String
  classAttr : String
  childrenTags : List String
  selfIdx : Nat
  isBody : Bool
deriving DecidableEq

/-- `CSS.escape`, the browser builtin: identity on identifier-safe names. -/
def cssEscape (s : String) : String := s

/-- Split a character list at spaces, JS `split(" ")` style (empty pieces
between consecutive separators are kept; `filter(Boolean)` drops them
afterwards). Structural recursion so that concrete inputs evaluate. -/
def splitSpacesAux : List Char → List Char → List String
  | [], acc => [String.mk acc.reverse]
  | c :: cs, acc =>
    if c = ' ' then String.mk acc.reverse :: splitSpacesAux cs []
    else splitSpacesAux cs (c :: acc)

/-- `s.split(" ").filter(Boolean)`. -/
def jsSplitSpace (s : String) : List String :=
  (splitSpacesAux s.data []).filter (fun c => ¬ c = "")

/-- The part `fallbackCss` emits for one level: tag, then one `.class` per
class fragment, then `:nth-child(index + 1)` when the parent has more than
one child (`siblings.length > 1`, siblings being all children of the
parent). -/
def levelPart (l : Level) : String :=
  let classes := String.join ((jsSplitSpace l.classAttr).map (fun c => "." ++ cssEscape c))
  let nth :=
    if 1 < l.childrenTags.length then ":nth-child(" ++ toString (l.selfIdx + 1) ++ ")" else ""
  l.tag ++ classes ++ nth

/-- The `while` loop of `fallbackCss`: stop at a missing parent (chain end),
at `document.body`, or once 5 parts have been collected; `count` is the
number of parts collected so far (`parts.length`). -/
def fallbackCssParts : List Level → Nat → List String
  | [], _ => []
  | l :: rest, count =>
    if l.isBody then []
    else if 5 ≤ count then []
    else levelPart l :: fallbackCssParts rest (count + 1)

/-- `fallbackCss` from selectors.ts: the collected parts are `unshift`ed
(hence reversed into document order) and joined with `" > "`. -/
def fallbackCss (chain : List Level) : String :=
  String.intercalate " > " (fallbackCssParts chain 0).reverse

/-- The per-level part claimed by the spec sentence of C4: the tag name, at
most 2 class-name fragments, and a positional index only when the element has
siblings with the same tag. -/
def levelPartClaim (l : Level) : String :=
  let classes :=
    String.join (((jsSplitSpace l.classAttr).take 2).map (fun c => "." ++ cssEscape c))
  let sameTagCount := (l.childrenTags.filter (fun t => t = l.tag)).length
  let nth :=
    if 1 < sameTagCount then ":nth-child(" ++ toString (l.selfIdx + 1) ++ ")" else ""
  l.tag ++ classes ++ nth

/-- The walk of the claimed algorithm of C4 (same bounds as the code's). -/
def fallbackCssClaimParts : List Level → Nat → List String
  | [], _ => []
  | l :: rest, count =>
    if l.isBody then []
    else if 5 ≤ count then []
    else levelPartClaim l :: fallbackCssClaimParts rest (count + 1)

/-- The selector claimed by C4: parts joined as a descendant-combinator
chain (single spaces). -/
def fallbackCssClaim (chain : List Level) : String :=
  String.intercalate " " (fallbackCssClaimParts chain 0).reverse

/-- An element with three class fragments and no siblings. -/
def lvlThreeClasses : Level :=
  { tag := "div", classAttr := "a b c", childrenTags := ["div"], selfIdx := 0, isBody := false }

/-- An element whose only sibling has a different tag. -/
def lvlDiffSibling : Level :=
  { tag := "div", classAttr := "", childrenTags := ["span", "div"], selfIdx := 1, isBody := false }

/-- A classless only-child element and its parent, for the combinator. -/
def lvlChild : Level :=
  { tag := "div", classAttr := "", childrenTags := ["div"], selfIdx := 0, isBody := false }

def lvlParent : Level :=
  { tag := "section", classAttr := "", childrenTags := ["section"], selfIdx := 0, isBody := false }

/-- Counterexample to claim C4: the code emits all three class fragments where
the claim allows at most 2; emits a positional index for an element whose only
sibling has a different tag, where the claim allows one only for same-tag
siblings; and joins levels with the child combinator, not the descendant
combinator. -/
theorem fallbackCss_structural_claim_counterexample :
    fallbackCss [lvlThreeClasses] = "div.a.b.c" ∧
    fallbackCssClaim [lvlThreeClasses] = "div.a.b" ∧
    fallbackCss [lvlDiffSibling] = "div:nth-child(2)" ∧
    fallbackCssClaim [lvlDiffSibling] = "div" ∧
    fallbackCss [lvlChild, lvlParent] = "section > div" ∧
    fallbackCssClaim [lvlChild, lvlParent] = "section div" := by
  decide

/-- The per-level part of the amended C4: the tag name, every class fragment,
and a positional `:nth-child` index (position among all of the parent's
children) whenever the parent has at least two children of any tag. -/
def levelPartAmended (l : Level) : String :=
  l.tag
    ++ String.join ((jsSplitSpace l.classAttr).map (fun c => "." ++ cssEscape c))
    ++ (if 2 ≤ l.childrenTags.length then ":nth-child(" ++ toString (l.selfIdx + 1) ++ ")" else "")

/-- The amended C4 selector, phrased as the spec would: take at most 5
ancestor levels strictly below the body, emit the amended part for each, and
join them in document order with the child combinator. -/
def fallbackCssSpecAmended (chain : List Level) : String :=
  String.intercalate " > "
    (((chain.takeWhile (fun l => ! l.isBody)).take 5).map levelPartAmended).reverse

theorem fallbackCssParts_eq_amended (chain : List Level) (count : Nat) :
    fallbackCssParts chain count =
      ((chain.takeWhile (fun l => ! l.isBody)).take (5 - count)).map levelPartAmended := by
  induction chain generalizing count with
  | nil => simp [fallbackCssParts]
  | cons l rest ih =>
    by_cases hb : l.isBody = true
    · simp [fallbackCssParts, hb, List.takeWhile_cons]
    · have hb' : l.isBody = false := by simpa using hb
      by_cases hc : 5 ≤ count
      · have h0 : 5 - count = 0 := Nat.sub_eq_zero_of_le hc
        simp [fallbackCssParts, hb', hc, h0, List.takeWhile_cons]
      · have hcount : 5 - count = (5 - (count + 1)) + 1 := by omega
        have hpart : levelPart l = levelPartAmended l := rfl
        simp [fallbackCssParts, hb', hc, List.takeWhile_cons, hcount,
          List.take_succ_cons, ih, hpart]

/-- Claim C4 (amended): for every element with neither a usable unique id nor
a test identifier, the structural fallback walks at most 5 ancestor levels,
stopping at the document body; at each level it emits the tag name, every
class-name fragment, and a positional `:nth-child` index whenever the parent
has more than one child of any tag; the parts are joined in document order
with the child combinator. -/
theorem fallbackCss_eq_amended_spec (chain : List Level) :
    fallbackCss chain = fallbackCssSpecAmended chain := by
  unfold fallbackCss fallbackCssSpecAmended
  rw [fallbackCssParts_eq_amended chain 0]

/-! ### Test-identifier selectors (C8) -/

/-- An element as seen by `buildSelectorInfo`: its attributes and its ancestor
chain for the structural fallback. -/
structure DomElem where
  attrs : List (String × String)
  chain : List Level
deriving DecidableEq

/-- `el.getAttribute(name)`. -/
def getAttr (el : DomElem) (name : String) : Option String :=
  (el.attrs.find? (fun p => p.1 = name)).map (fun p => p.2)

/-- `a || b` on two optional attribute values with JS falsiness. -/
def jsOrOpt (a b : Option String) : Option String :=
  match a with
  | some s => if s = "" then b else some s
  | none => b

/-- The CSS attribute-equality selector text `[name="value"]`. -/
def attrEqSelector (name value : String) : String :=
  "[" ++ name ++ "=\"" ++ value ++ "\"]"

/-- `hasUniqueId` from selectors.ts: a truthy id that is unique in the
document (`idCount` gives the document's count of elements matching the
escaped id selector). -/
def hasUniqueId (idCount : String → Nat) (el : DomElem) : Option String :=
  match getAttr el "id" with
  | none => none
  | some i =>
    if i = "" then none
    else if idCount (cssEscape i) = 1 then some ("#" ++ cssEscape i) else none

/-- `dataTestId` from selectors.ts:
`const testId = el.getAttribute("data-testid") || el.getAttribute("data-test")`,
and when truthy, the selector `[data-testid="${testId}"]` — note the attribute
name in the emitted selector is always `data-testid`. -/
def dataTestId (el : DomElem) : Option String :=
  match jsOrOpt (getAttr el "data-testid") (getAttr el "data-test") with
  | none => none
  | some t => if t = "" then none else some (attrEqSelector "data-testid" t)

/-- The `css` field of `buildSelectorInfo`:
`hasUniqueId(el) || dataTestId(el) || fallbackCss(el)`. -/
def buildSelectorCss (idCount : String → Nat) (el : DomElem) : String :=
  jsOrS (hasUniqueId idCount el) (jsOrS (dataTestId el) (fallbackCss el.chain))

/-- Whether the attribute-equality selector `[name="value"]` matches the
element: the attribute is present with exactly that value. -/
def attrEqMatches (el : DomElem) (name value : String) : Bool :=
  getAttr el name = some value

/-- An element carrying only `data-test` (no id, no `data-testid`). -/
def elDataTest : DomElem :=
  { attrs := [("data-test", "login")]
    chain := [{ tag := "button", classAttr := "", childrenTags := ["button"],
                selfIdx := 0, isBody := false }] }

/-- An element carrying `data-testid`. -/
def elDataTestId : DomElem :=
  { attrs := [("data-testid", "email")], chain := [] }

/-- Claim C8 at the failing input: for an element carrying only `data-test`,
locator synthesis emits `[data-testid="login"]` as the primary selector — an
attribute-equality selector on `data-testid`, an attribute the element does
not carry, so the selector does not match the element. For a `data-testid`
carrier the emitted selector does match. -/
theorem dataTestId_wrong_attribute_bug :
    getAttr elDataTest "data-testid" = none ∧
    getAttr elDataTest "data-test" = some "login" ∧
    dataTestId elDataTest = some (attrEqSelector "data-testid" "login") ∧
    attrEqMatches elDataTest "data-testid" "login" = false ∧
    attrEqMatches elDataTest "data-test" "login" = true ∧
    buildSelectorCss (fun _ => 0) elDataTest = attrEqSelector "data-testid" "login" ∧
    dataTestId elDataTestId = some (attrEqSelector "data-testid" "email") ∧
    attrEqMatches elDataTestId "data-testid" "email" = true := by
  decide

/-! ## Background handlers (src/background/index.ts)

`recordingBuffers` is the in-memory `Map<number, RecordingBuffer>` and
`stored` the persisted `recordingBuffers` collection; both are keyed lists.
The LLM execution loops are parametrised by the same executor oracle as the
Flow Runner. -/

/-- Look up the buffer for a tab (`Map.get` / `getRecordingBuffer`). -/
def findBuffer (buffers : List RecordingBuffer) (tabIdV : Nat) : Option RecordingBuffer :=
  buffers.find? (fun b => b.tabId = tabIdV)

/-- `handleStartRecording`: build a fresh buffer with a new session id and no
steps, `Map.set` it in memory and upsert it into storage — unconditionally,
whatever was there before. Returns (memory, stored). -/
def handleStartRecording (mem stored : List RecordingBuffer) (tabIdV : Nat)
    (sessionIdV nowV : String) : List RecordingBuffer × List RecordingBuffer :=
  let buffer : RecordingBuffer :=
    { tabId := tabIdV, sessionId := sessionIdV, steps := [], startedAt := nowV }
  (upsertBy RecordingBuffer.tabId buffer mem, upsertBy RecordingBuffer.tabId buffer stored)

/-- A previously captured step sitting in an active buffer. -/
def recordedStep : Step := { id := "r1", type := StepType.click }

/-- An active recording buffer for tab 1 holding one accumulated step. -/
def activeBuf : RecordingBuffer :=
  { tabId := 1, sessionId := "rec-1", steps := [recordedStep], startedAt := "T0" }

/-- Counterexample to claim C6: starting a recording on tab 1, which already
has an active buffer holding one step, replaces that buffer (in memory and in
storage) with a fresh empty one under a new session id — the accumulated step
is lost, neither reuse nor rejection happens. -/
theorem handleStartRecording_overwrite_counterexample :
    findBuffer [activeBuf] 1 = some activeBuf ∧
    activeBuf.steps = [recordedStep] ∧
    (handleStartRecording [activeBuf] [activeBuf] 1 "rec-2" "T1").1 =
      [{ tabId := 1, sessionId := "rec-2", steps := [], startedAt := "T1" }] ∧
    (handleStartRecording [activeBuf] [activeBuf] 1 "rec-2" "T1").2 =
      [{ tabId := 1, sessionId := "rec-2", steps := [], startedAt := "T1" }] := by
  decide

/-- Claim C6 (amended): starting a recording always installs a fresh empty
buffer for the tab — replacing (not reusing, not rejecting) any active buffer,
so accumulated steps are discarded. The per-tab keying is preserved: other
tabs' buffers are untouched and key-uniqueness of the in-memory map is
maintained. -/
theorem handleStartRecording_fresh_buffer (mem stored : List RecordingBuffer)
    (tabIdV : Nat) (sessionIdV nowV : String) :
    findBuffer (handleStartRecording mem stored tabIdV sessionIdV nowV).1 tabIdV =
      some { tabId := tabIdV, sessionId := sessionIdV, steps := [], startedAt := nowV } ∧
    findBuffer (handleStartRecording mem stored tabIdV sessionIdV nowV).2 tabIdV =
      some { tabId := tabIdV, sessionId := sessionIdV, steps := [], startedAt := nowV } ∧
    (∀ t, t ≠ tabIdV →
      findBuffer (handleStartRecording mem stored tabIdV sessionIdV nowV).1 t =
        findBuffer mem t ∧
      findBuffer (handleStartRecording mem stored tabIdV sessionIdV nowV).2 t =
        findBuffer stored t) ∧
    ((mem.map RecordingBuffer.tabId).Nodup →
      ((handleStartRecording mem stored tabIdV sessionIdV nowV).1.map
        RecordingBuffer.tabId).Nodup) := by
  refine ⟨?_, ?_, ?_, ?_⟩
  · simpa [findBuffer, handleStartRecording] using
      find?_upsertBy_self RecordingBuffer.tabId
        { tabId := tabIdV, sessionId := sessionIdV, steps := [], startedAt := nowV } mem
  · simpa [findBuffer, handleStartRecording] using
      find?_upsertBy_self RecordingBuffer.tabId
        { tabId := tabIdV, sessionId := sessionIdV, steps := [], startedAt := nowV } stored
  · intro t ht
    constructor
    · simpa [findBuffer, handleStartRecording] using
        find?_upsertBy_other RecordingBuffer.tabId
          { tabId := tabIdV, sessionId := sessionIdV, steps := [], startedAt := nowV } mem t
          (by simpa using ht)
    · simpa [findBuffer, handleStartRecording] using
        find?_upsertBy_other RecordingBuffer.tabId
          { tabId := tabIdV, sessionId := sessionIdV, steps := [], startedAt := nowV } stored t
          (by simpa using ht)
  · intro h
    simpa [handleStartRecording] using
      keys_nodup_upsertBy RecordingBuffer.tabId
        { tabId := tabIdV, sessionId := sessionIdV, steps := [], startedAt := nowV } mem h

/-- Witness for the amended C6 over the counterexample's state. -/
theorem handleStartRecording_fresh_buffer_witness :
    (2 ≠ 1) ∧
    findBuffer (handleStartRecording [activeBuf] [activeBuf] 1 "rec-2" "T1").1 1 =
      some { tabId := 1, sessionId := "rec-2", steps := [], startedAt := "T1" } ∧
    findBuffer (handleStartRecording [activeBuf] [activeBuf] 1 "rec-2" "T1").1 2 =
      findBuffer [activeBuf] 2 ∧
    ((handleStartRecording [activeBuf] [activeBuf] 1 "rec-2" "T1").1.map
      RecordingBuffer.tabId).Nodup := by
  have h := handleStartRecording_fresh_buffer [activeBuf] [activeBuf] 1 "rec-2" "T1"
  exact ⟨by decide, h.1, (h.2.2.1 2 (by decide)).1, h.2.2.2 (by decide)⟩

/-! ### The LLM step-execution loops (C3) -/

/-- `{...step.meta, error: message}`: set the error key in place. -/
def annotateError (s : Step) (m : String) : Step :=
  { s with meta := upsertBy (fun p : String × String => p.1) ("error", m) s.meta }

/-- Whether an executor outcome is a success result. -/
def stepOutcomeOk : StepOutcome → Bool
  | StepOutcome.ok => true
  | StepOutcome.fail _ => false
  | StepOutcome.chanErr _ => false

/-- The step loop of `handleRunLlmConversation`'s execute branch: a successful
step is pushed into the recording buffer; the branch for a failure result is
an empty block and the `catch` around the send ignores the error, so a failing
step is neither recorded nor annotated and the loop continues. Returns the
buffer contents after the loop. -/
def convExecuteLoop (exec : Step → StepOutcome) : List Step → List Step
  | [] => []
  | s :: rest =>
    match exec s with
    | StepOutcome.ok => s :: convExecuteLoop exec rest
    | StepOutcome.fail _ => convExecuteLoop exec rest
    | StepOutcome.chanErr _ => convExecuteLoop exec rest

/-- Outcome of the conversational execute branch: the buffer contents when the
loop ends, the `executedSteps` reported in the response, and the persisted
tasks afterwards. -/
structure ConvOutcome where
  bufferSteps : List Step
  executedSteps : List Step
  tasks : List Task
deriving DecidableEq

/-- `handleRunLlmConversation`, execute branch, projected onto buffer and
tasks: both `buffer.steps` and `executedSteps` receive exactly the successful
steps; after the loop the buffer is removed, and the handler contains no
`saveTask` call, so the persisted tasks are returned unchanged. -/
def convHandleExecute (tasks : List Task) (exec : Step → StepOutcome)
    (steps : List Step) : ConvOutcome :=
  let buf := convExecuteLoop exec steps
  { bufferSteps := buf, executedSteps := buf, tasks := tasks }

/-- The error text `handleRunLlmPrompt` records for a failing step:
`result.errorMessage || "Step execution failed"` for a failure result, the
thrown error's message for a send error, nothing for a success. -/
def promptFailureText : StepOutcome → Option String
  | StepOutcome.ok => none
  | StepOutcome.fail em => some (jsOrS em "Step execution failed")
  | StepOutcome.chanErr m => some m

/-- The step loop of `handleRunLlmPrompt`: a successful step is recorded as
is; a failing step is recorded with its error message written into
`meta.error`, and the loop continues. -/
def promptExecuteLoop (exec : Step → StepOutcome) : List Step → List Step
  | [] => []
  | s :: rest =>
    match promptFailureText (exec s) with
    | none => s :: promptExecuteLoop exec rest
    | some m => annotateError s m :: promptExecuteLoop exec rest

/-- Steps for the conversational-loop counterexample. -/
def cs1 : Step := { id := "cs1", type := StepType.click }

def cs2 : Step := { id := "cs2", type := StepType.click }

def cs3 : Step := { id := "cs3", type := StepType.click }

/-- Executor failing on cs2 with message boom. -/
def execFailCs2 : Step → StepOutcome := fun s =>
  if s.id = "cs2" then StepOutcome.fail (some "boom") else StepOutcome.ok

/-- Counterexample to claim C3: in the conversational execute loop, the
failing step cs2 ends up neither in the buffer (annotated or not) nor in
`executedSteps`, and no Task is persisted — the tasks collection is unchanged
(empty before, empty after), while execution did continue to cs3. -/
theorem convLoop_drops_failure_counterexample :
    convHandleExecute [] execFailCs2 [cs1, cs2, cs3] =
      { bufferSteps := [cs1, cs3], executedSteps := [cs1, cs3], tasks := [] } ∧
    (¬ cs2 ∈ (convHandleExecute [] execFailCs2 [cs1, cs2, cs3]).bufferSteps) ∧
    (¬ annotateError cs2 "boom" ∈ (convHandleExecute [] execFailCs2 [cs1, cs2, cs3]).bufferSteps) := by
  decide

/-- Claim C3 (amended): in the conversational execute loop a failing step does
not abort the loop — execution continues with the next step — but the failed
step is silently dropped: the buffer (and `executedSteps`) is exactly the
successful steps in order, nothing is annotated, and the loop persists no
Task. The record-with-error-metadata behavior lives in the single-prompt loop
(`handleRunLlmPrompt`), which keeps every step, annotating failing ones. -/
theorem convLoop_failure_tolerance (exec : Step → StepOutcome)
    (tasks : List Task) (steps : List Step) :
    convExecuteLoop exec steps = steps.filter (fun s => stepOutcomeOk (exec s)) ∧
    (convHandleExecute tasks exec steps).tasks = tasks ∧
    promptExecuteLoop exec steps = steps.map (fun s =>
      match promptFailureText (exec s) with
      | none => s
      | some m => annotateError s m) := by
  refine ⟨?_, rfl, ?_⟩
  · induction steps with
    | nil => simp [convExecuteLoop]
    | cons s rest ih =>
      rcases hx : exec s with _ | em | m <;>
        simp [convExecuteLoop, hx, List.filter_cons, stepOutcomeOk, ih]
  · induction steps with
    | nil => simp [promptExecuteLoop]
    | cons s rest ih =>
      rcases hx : promptFailureText (exec s) with _ | m <;>
        simp [promptExecuteLoop, hx, ih]

/-! ### Flow deletion cascade (C7)

`handleDeleteFlow` deletes the flow, then collects the ids of all triggers
referencing it and runs `deleteTrigger` for every id under `Promise.all`.
Each `deleteTrigger` is a whole-list read-modify-write of the persisted
`triggers` collection. Because the calls start concurrently, every
`getTriggers` read is issued before any `setToStorage` write (the reads all
happen in the synchronous `map`, the writes only after each read resolves),
and chrome.storage serves requests in issue order — so every call reads the
original list and the last write wins. -/

/-- `deleteFlow` from storage.ts. -/
def deleteFlow (flows : List Flow) (flowIdV : String) : List Flow :=
  flows.filter (fun f => ¬ f.id = flowIdV)

/-- One `deleteTrigger` read-modify-write given the list its read returned. -/
def deleteTrigger (triggers : List Trigger) (triggerIdV : String) : List Trigger :=
  triggers.filter (fun t => ¬ t.id = triggerIdV)

/-- `Promise.all(ids.map((id) => deleteTrigger(id)))` against a store whose
reads all return `stored` and whose writes land in order: the final stored
value is the last call's write (`stored` itself when there is no call). -/
def promiseAllDeleteTriggers (stored : List Trigger) (ids : List String) : List Trigger :=
  ((ids.map (fun id => deleteTrigger stored id)).getLast?).getD stored

/-- `handleDeleteFlow` from background/index.ts. -/
def handleDeleteFlow (flows : List Flow) (triggers : List Trigger)
    (flowIdV : String) : List Flow × List Trigger :=
  (deleteFlow flows flowIdV,
   promiseAllDeleteTriggers triggers
     ((triggers.filter (fun t => t.flowId = flowIdV)).map (fun t => t.id)))

/-- The sequential cascade the claim describes: delete the triggers one after
another, each read seeing the previous write. -/
def cascadeDeleteSeq (triggers : List Trigger) (ids : List String) : List Trigger :=
  ids.foldl (fun ts id => deleteTrigger ts id) triggers

/-- A second flow, referenced by the surviving trigger. -/
def wFlow2 : Flow :=
  { id := "f2", name := "flow2", taskIds := [], enabled := true,
    createdAt := "T0", updatedAt := "T0" }

def trigA : Trigger :=
  { id := "tr1", type := TriggerType.url, flowId := "f1",
    urlPattern := some "example.com", enabled := true }

def trigB : Trigger :=
  { id := "tr2", type := TriggerType.url, flowId := "f1",
    urlPattern := some "example.org", enabled := true }

def trigC : Trigger :=
  { id := "tr3", type := TriggerType.url, flowId := "f2",
    urlPattern := some "example.net", enabled := true }

/-- Claim C7 at the failing input: deleting flow f1, referenced by triggers
tr1 and tr2, leaves tr1 in the stored collection — only the last concurrent
`deleteTrigger` write survives, so exactly one of the two orphaned triggers is
removed. The unrelated trigger tr3 is untouched. The sequential cascade the
claim (and the handler's own enumeration of all orphan ids) intends would
remove both. -/
theorem handleDeleteFlow_lost_cascade_bug :
    handleDeleteFlow [wFlow, wFlow2] [trigA, trigB, trigC] "f1" =
      ([wFlow2], [trigA, trigC]) ∧
    trigA.flowId = "f1" ∧
    cascadeDeleteSeq [trigA, trigB, trigC] ["tr1", "tr2"] = [trigC] := by
  decide

/-! ### Import (C9) -/

/-- The import/export payload `{version, tasks[], flows[], triggers[]}`. The
collections are optional because `importData` guards every field with
`?? []`. -/
structure ImportExportPayload where
  version : Nat
  tasks : Option (List Task) := none
  flows : Option (List Flow) := none
  triggers : Option (List Trigger) := none
deriving DecidableEq

/-- `importData`'s mode argument. -/
inductive ImportMode where
  | merge
  | replace
deriving DecidableEq

/-- The three persisted collections importData touches. -/
structure StoredCollections where
  tasks : List Task
  flows : List Flow
  triggers : List Trigger
deriving DecidableEq

/-- `mergeById` from storage.ts: build an insertion-ordered map from the base
list, `Map.set` each incoming item (replace in place on an existing id, append
otherwise), and read the values back out. -/
def mergeById (g : α → κ) [DecidableEq κ] (base incoming : List α) : List α :=
  incoming.foldl (fun acc item => upsertBy g item acc)
    (base.foldl (fun acc item => upsertBy g item acc) [])

/-- `importData` from storage.ts. -/
def importData (st : StoredCollections) (payload : ImportExportPayload)
    (mode : ImportMode) : StoredCollections :=
  match mode with
  | ImportMode.replace =>
    { tasks := payload.tasks.getD []
      flows := payload.flows.getD []
      triggers := payload.triggers.getD [] }
  | ImportMode.merge =>
    { tasks := mergeById Task.id st.tasks (payload.tasks.getD [])
      flows := mergeById Flow.id st.flows (payload.flows.getD [])
      triggers := mergeById Trigger.id st.triggers (payload.triggers.getD []) }

theorem keys_nodup_foldl_upsertBy (g : α → κ) [DecidableEq κ] (l acc : List α)
    (hacc : (acc.map g).Nodup) :
    ((l.foldl (fun acc item => upsertBy g item acc) acc).map g).Nodup := by
  induction l generalizing acc with
  | nil => simpa using hacc
  | cons i rest ih =>
    rw [List.foldl_cons]
    exact ih _ (keys_nodup_upsertBy g i acc hacc)

theorem mem_foldl_upsertBy (g : α → κ) [DecidableEq κ] (l : List α)
    (acc : List α) (a : α) (hl : (l.map g).Nodup) (hacc : (acc.map g).Nodup) :
    a ∈ l.foldl (fun acc item => upsertBy g item acc) acc ↔
      a ∈ l ∨ (a ∈ acc ∧ ∀ x ∈ l, g x ≠ g a) := by
  induction l generalizing acc with
  | nil => simp
  | cons i rest ih =>
    simp only [List.map_cons, List.nodup_cons] at hl
    rw [List.foldl_cons, ih _ hl.2 (keys_nodup_upsertBy g i acc hacc)]
    rw [mem_upsertBy g i acc hacc a]
    constructor
    · rintro (ha | ⟨(rfl | ⟨haacc, hne⟩), hrest⟩)
      · exact Or.inl (List.mem_cons_of_mem _ ha)
      · exact Or.inl (List.mem_cons_self _ _)
      · refine Or.inr ⟨haacc, ?_⟩
        intro x hx
        rcases List.mem_cons.mp hx with rfl | hx'
        · exact fun hxa => hne hxa.symm
        · exact hrest x hx'
    · rintro (ha | ⟨haacc, hall⟩)
      · rcases List.mem_cons.mp ha with rfl | ha'
        · refine Or.inr ⟨Or.inl rfl, ?_⟩
          intro x hx hxa
          exact hl.1 (hxa ▸ List.mem_map_of_mem g hx)
        · exact Or.inl ha'
      · refine Or.inr ⟨Or.inr ⟨haacc, ?_⟩, ?_⟩
        · exact fun hai => hall i (List.mem_cons_self _ _) hai.symm
        · exact fun x hx => hall x (List.mem_cons_of_mem _ hx)

/-- When both id lists are duplicate-free, `mergeById` is the id-keyed union
in which incoming wins: a value is in the result iff it is an incoming item,
or a base item whose id no incoming item carries. -/
theorem mem_mergeById (g : α → κ) [DecidableEq κ] (base incoming : List α)
    (a : α) (hbase : (base.map g).Nodup) (hinc : (incoming.map g).Nodup) :
    a ∈ mergeById g base incoming ↔
      a ∈ incoming ∨ (a ∈ base ∧ ∀ x ∈ incoming, g x ≠ g a) := by
  unfold mergeById
  rw [mem_foldl_upsertBy g incoming _ a hinc
    (keys_nodup_foldl_upsertBy g base [] (by simp))]
  rw [mem_foldl_upsertBy g base [] a hbase (by simp)]
  simp

/-- Claim C9: import in replace mode overwrites each collection with exactly
the incoming items; import in merge mode produces, for each collection, the
id-keyed union of existing and incoming items in which an incoming item
replaces any existing item with the same id. -/
theorem importData_merge_replace (st : StoredCollections)
    (payload : ImportExportPayload) :
    importData st payload ImportMode.replace =
      { tasks := payload.tasks.getD []
        flows := payload.flows.getD []
        triggers := payload.triggers.getD [] } ∧
    ((st.tasks.map Task.id).Nodup → ((payload.tasks.getD []).map Task.id).Nodup →
      ∀ t, t ∈ (importData st payload ImportMode.merge).tasks ↔
        t ∈ payload.tasks.getD [] ∨
          (t ∈ st.tasks ∧ ∀ u ∈ payload.tasks.getD [], u.id ≠ t.id)) ∧
    ((st.flows.map Flow.id).Nodup → ((payload.flows.getD []).map Flow.id).Nodup →
      ∀ f, f ∈ (importData st payload ImportMode.merge).flows ↔
        f ∈ payload.flows.getD [] ∨
          (f ∈ st.flows ∧ ∀ u ∈ payload.flows.getD [], u.id ≠ f.id)) ∧
    ((st.triggers.map Trigger.id).Nodup →
      ((payload.triggers.getD []).map Trigger.id).Nodup →
      ∀ r, r ∈ (importData st payload ImportMode.merge).triggers ↔
        r ∈ payload.triggers.getD [] ∨
          (r ∈ st.triggers ∧ ∀ u ∈ payload.triggers.getD [], u.id ≠ r.id)) := by
  refine ⟨rfl, ?_, ?_, ?_⟩
  · intro h1 h2 t
    exact mem_mergeById Task.id st.tasks (payload.tasks.getD []) t h1 h2
  · intro h1 h2 f
    exact mem_mergeById Flow.id st.flows (payload.flows.getD []) f h1 h2
  · intro h1 h2 r
    exact mem_mergeById Trigger.id st.triggers (payload.triggers.getD []) r h1 h2

/-- Existing task A and incoming task B with distinct ids. -/
def taskA : Task :=
  { id := "a", name := "task-a", steps := [], createdAt := "T0", updatedAt := "T0" }

def taskB : Task :=
  { id := "b", name := "task-b", steps := [], createdAt := "T0", updatedAt := "T0" }

def stA : StoredCollections := { tasks := [taskA], flows := [], triggers := [] }

def payloadB : ImportExportPayload := { version := 1, tasks := some [taskB] }

/-- Witness for C9: importing tasks [B] over existing [A] yields both A and B
in merge mode, and exactly [B] in replace mode. -/
theorem importData_merge_replace_witness :
    taskA ∈ (importData stA payloadB ImportMode.merge).tasks ∧
    taskB ∈ (importData stA payloadB ImportMode.merge).tasks ∧
    importData stA payloadB ImportMode.replace =
      { tasks := [taskB], flows := [], triggers := [] } := by
  have h := importData_merge_replace stA payloadB
  refine ⟨?_, ?_, h.1⟩
  · exact (h.2.1 (by decide) (by decide) taskA).mpr
      (Or.inr ⟨by decide, by decide⟩)
  · exact (h.2.1 (by decide) (by decide) taskB).mpr (Or.inl (by decide))

end BrowserMac
